import Mathlib

/-!
# Cardano dice bot: a shallow embedding of `netlify/functions/webhook.js`

The source file bundles three Netlify handlers (webhook, balance, generate-address)
and the Discord bot class `CardanoDiceBot`.  This development embeds

* `CardanoDiceBot.generateFairRoll` (lines 409-415),
* the `dice` command: its option schema (lines 254-265) and its `execute`
  handler (lines 266-323),
* the webhook handler (lines 3-52) together with `updateUserBalance` (lines 155-159).
  The source assigns `exports.handler` three times; `Webhook.handler` is the first of
  these functions, the one its comment names `netlify/functions/webhook.js`.

Conventions.

* JavaScript strings are Lean `String`s; indices count characters.  All strings that
  matter here (hex digests, Discord snowflake ids, decimal timestamps) are ASCII, where
  UTF-16 code units and code points coincide.
* Amounts of ADA are JavaScript numbers in the source; they are embedded as exact
  rationals `ℚ`.  Rounding of doubles and the `toFixed(2)` presentation are not modelled.
* `NaN` results are embedded as `none`.
* The SHA-256 digest of Node's `crypto` module is not part of the repository; it is a
  parameter `sha256hex : String → String` of every definition that hashes.  Concrete
  runs instantiate it with `SHA256.sha256hex`.
* Side effects (HTTP calls, console output, Discord replies, reads of the clock and of
  the random source) are recorded as a list of actions in the order performed.
* To state what a method reads and changes, `generateFairRoll` and `generateServerSeed`
  are also embedded with the state of the runtime passed explicitly (`Runtime`).
-/

namespace JS

/-- Characters that `parseInt` skips at the start of its input (ECMAScript
`StrWhiteSpaceChar`: white space and line terminators), as code points. -/
def whiteSpaceCodes : List Nat :=
  [0x09, 0x0A, 0x0B, 0x0C, 0x0D, 0x20, 0xA0, 0x1680, 0x2000, 0x2001, 0x2002, 0x2003,
   0x2004, 0x2005, 0x2006, 0x2007, 0x2008, 0x2009, 0x200A, 0x2028, 0x2029, 0x202F,
   0x205F, 0x3000, 0xFEFF]

/-- Is `c` skipped by `parseInt` as leading white space? -/
def isWhiteSpace (c : Char) : Bool := whiteSpaceCodes.contains c.toNat

/-- Value of a radix-16 digit (either case); `none` when `c` is not such a digit. -/
def hexDigitValue (c : Char) : Option Nat :=
  if 48 ≤ c.toNat ∧ c.toNat ≤ 57 then some (c.toNat - 48)
  else if 97 ≤ c.toNat ∧ c.toNat ≤ 102 then some (c.toNat - 97 + 10)
  else if 65 ≤ c.toNat ∧ c.toNat ≤ 70 then some (c.toNat - 65 + 10)
  else none

/-- Is `c` a radix-16 digit? -/
def isHexDigit (c : Char) : Bool := (hexDigitValue c).isSome

/-- The mathematical integer denoted by a run of radix-16 digits, most significant first. -/
def hexDigitsValue (cs : List Char) : Nat :=
  cs.foldl (fun acc c => 16 * acc + (hexDigitValue c).getD 0) 0

/-- Step 3 of `parseInt`: the sign announced by a leading `-`. -/
def parseIntSign (cs : List Char) : Int :=
  match cs with
  | '-' :: _ => -1
  | _ => 1

/-- Step 3 of `parseInt`: remove a leading `+` or `-`. -/
def dropSign (cs : List Char) : List Char :=
  match cs with
  | '-' :: rest => rest
  | '+' :: rest => rest
  | _ => cs

/-- Step 5 of `parseInt` for radix 16: remove a leading `0x` or `0X`. -/
def dropHexPrefix (cs : List Char) : List Char :=
  match cs with
  | '0' :: 'x' :: rest => rest
  | '0' :: 'X' :: rest => rest
  | _ => cs

/-- Function `parseInt(s, 16)`: skip leading white space, read an optional sign and an optional
`0x` prefix, then the longest run of radix-16 digits.  `none` stands for `NaN`, returned
when that run is empty.  (`-0` is embedded as `0`.) -/
def parseInt16 (s : String) : Option Int :=
  let trimmed := s.data.dropWhile isWhiteSpace
  let sign := parseIntSign trimmed
  let digits := (dropHexPrefix (dropSign trimmed)).takeWhile isHexDigit
  if digits.isEmpty then none else some (sign * (hexDigitsValue digits : Int))

/-- Method `s.substring(start, stop)` for non-negative integer arguments: the characters from
index `min start stop` up to, not including, index `max start stop`. -/
def substring (s : String) (start stop : Nat) : String :=
  ⟨(s.data.drop (min start stop)).take (max start stop - min start stop)⟩

/-- Method `s.slice(start, stop)` for non-negative integer arguments: the characters from index
`start` up to, not including, index `stop`; empty when `stop ≤ start`. -/
def slice (s : String) (start stop : Nat) : String :=
  ⟨(s.data.drop start).take (stop - start)⟩

/-- The remainder operator `a % b` on integers: truncated, the sign follows `a`. -/
def rem (a b : Int) : Int := Int.tmod a b

end JS

/-! ### SHA-256

Node's `crypto` module is not part of the repository.  The statements about
`generateFairRoll` and the dice command hold for any digest function, which they take as
a parameter.  The definition below follows FIPS 180-4 on 32-bit words held in `Nat`; it
is the digest function the concrete runs are evaluated with. -/

namespace SHA256

/-- The round constants `K_0 .. K_63`. -/
def K : List Nat :=
  [0x428a2f98, 0x71374491, 0xb5c0fbcf, 0xe9b5dba5, 0x3956c25b, 0x59f111f1, 0x923f82a4,
   0xab1c5ed5, 0xd807aa98, 0x12835b01, 0x243185be, 0x550c7dc3, 0x72be5d74, 0x80deb1fe,
   0x9bdc06a7, 0xc19bf174, 0xe49b69c1, 0xefbe4786, 0x0fc19dc6, 0x240ca1cc, 0x2de92c6f,
   0x4a7484aa, 0x5cb0a9dc, 0x76f988da, 0x983e5152, 0xa831c66d, 0xb00327c8, 0xbf597fc7,
   0xc6e00bf3, 0xd5a79147, 0x06ca6351, 0x14292967, 0x27b70a85, 0x2e1b2138, 0x4d2c6dfc,
   0x53380d13, 0x650a7354, 0x766a0abb, 0x81c2c92e, 0x92722c85, 0xa2bfe8a1, 0xa81a664b,
   0xc24b8b70, 0xc76c51a3, 0xd192e819, 0xd6990624, 0xf40e3585, 0x106aa070, 0x19a4c116,
   0x1e376c08, 0x2748774c, 0x34b0bcb5, 0x391c0cb3, 0x4ed8aa4a, 0x5b9cca4f, 0x682e6ff3,
   0x748f82ee, 0x78a5636f, 0x84c87814, 0x8cc70208, 0x90befffa, 0xa4506ceb, 0xbef9a3f7,
   0xc67178f2]

/-- The initial hash value `H_0 .. H_7`. -/
def H0 : List Nat :=
  [0x6a09e667, 0xbb67ae85, 0x3c6ef372, 0xa54ff53a, 0x510e527f, 0x9b05688c, 0x1f83d9ab,
   0x5be0cd19]

/-- Addition modulo `2^32`. -/
def add32 (a b : Nat) : Nat := (a + b) % 2 ^ 32

/-- Rotation of a 32-bit word to the right by `n` bits. -/
def rotr (x n : Nat) : Nat := (x >>> n) ||| ((x <<< (32 - n)) % 2 ^ 32)

/-- Function `Ch(x, y, z)`. -/
def ch (x y z : Nat) : Nat := (x &&& y) ^^^ ((x ^^^ 0xffffffff) &&& z)

/-- Function `Maj(x, y, z)`. -/
def maj (x y z : Nat) : Nat := (x &&& y) ^^^ (x &&& z) ^^^ (y &&& z)

/-- Function `Σ0`. -/
def bigSigma0 (x : Nat) : Nat := rotr x 2 ^^^ rotr x 13 ^^^ rotr x 22

/-- Function `Σ1`. -/
def bigSigma1 (x : Nat) : Nat := rotr x 6 ^^^ rotr x 11 ^^^ rotr x 25

/-- Function `σ0`. -/
def smallSigma0 (x : Nat) : Nat := rotr x 7 ^^^ rotr x 18 ^^^ (x >>> 3)

/-- Function `σ1`. -/
def smallSigma1 (x : Nat) : Nat := rotr x 17 ^^^ rotr x 19 ^^^ (x >>> 10)

/-- The UTF-8 bytes of a character (`update` encodes a string as UTF-8). -/
def utf8 (c : Char) : List Nat :=
  let n := c.toNat
  if n < 0x80 then [n]
  else if n < 0x800 then [0xC0 + n / 64, 0x80 + n % 64]
  else if n < 0x10000 then [0xE0 + n / 4096, 0x80 + n / 64 % 64, 0x80 + n % 64]
  else [0xF0 + n / 262144, 0x80 + n / 4096 % 64, 0x80 + n / 64 % 64, 0x80 + n % 64]

/-- The `width` bytes of `n`, most significant first. -/
def beBytes (width n : Nat) : List Nat :=
  (List.range width).reverse.map fun i => n / 256 ^ i % 256

/-- Padding: the byte `0x80`, zeros up to 56 modulo 64, and the bit length on 8 bytes. -/
def pad (bytes : List Nat) : List Nat :=
  let l := bytes.length
  bytes ++ [0x80] ++ List.replicate ((119 - l % 64) % 64) 0 ++ beBytes 8 (8 * l)

/-- Bytes grouped into big-endian 32-bit words. -/
def words : List Nat → List Nat
  | b0 :: b1 :: b2 :: b3 :: rest => (((b0 * 256 + b1) * 256 + b2) * 256 + b3) :: words rest
  | _ => []

/-- The message schedule, grown by `n` words; `ws` holds the words latest first. -/
def extend : Nat → List Nat → List Nat
  | 0, ws => ws
  | n + 1, ws =>
    extend n (add32 (add32 (smallSigma1 (ws.getD 1 0)) (ws.getD 6 0))
      (add32 (smallSigma0 (ws.getD 14 0)) (ws.getD 15 0)) :: ws)

/-- One round on the working variables `a .. h` with the constant and schedule word
`kw`. -/
def round (s : List Nat) (kw : Nat × Nat) : List Nat :=
  match s with
  | [a, b, c, d, e, f, g, h] =>
    let t1 := add32 (add32 (add32 h (bigSigma1 e)) (add32 (ch e f g) kw.1)) kw.2
    let t2 := add32 (bigSigma0 a) (maj a b c)
    [add32 t1 t2, a, b, c, add32 d t1, e, f, g]
  | _ => s

/-- The compression of one 16-word block into the hash value `h`. -/
def compress (h : List Nat) (block : List Nat) : List Nat :=
  let w := (extend 48 block.reverse).reverse
  List.zipWith add32 h ((K.zip w).foldl round h)

/-- The words of the padded message cut into blocks of 16 (`fuel` bounds their number). -/
def blocks : Nat → List Nat → List (List Nat)
  | 0, _ => []
  | fuel + 1, ws => if ws.isEmpty then [] else ws.take 16 :: blocks fuel (ws.drop 16)

/-- The eight words of the digest of a byte string. -/
def digestWords (bytes : List Nat) : List Nat :=
  let ws := words (pad bytes)
  (blocks ws.length ws).foldl compress H0

/-- The hex digit of `n < 16`. -/
def hexDigit (n : Nat) : Char := "0123456789abcdef".data.getD n '0'

/-- A 32-bit word as 8 hex digits. -/
def hex32 (w : Nat) : List Char :=
  (List.range 8).reverse.map fun i => hexDigit (w / 16 ^ i % 16)

/-- The digest `crypto.createHash('sha256').update(m).digest('hex')`. -/
def sha256hex (m : String) : String :=
  ⟨(digestWords (m.data.flatMap utf8)).flatMap hex32⟩

end SHA256

namespace CardanoDiceBot

/-- The value `generateFairRoll` returns for the parsed number `num`:
`(num % 6) + 1`. -/
def rollOfNum (num : Int) : Int := JS.rem num 6 + 1

/-- Method `generateFairRoll(serverSeed, clientSeed)` (lines 409-415).
`sha256hex m` stands for `crypto.createHash('sha256').update(m).digest('hex')`.
The result is `none` when `parseInt` yields `NaN`. -/
def generateFairRoll (sha256hex : String → String) (serverSeed clientSeed : String) :
    Option Int :=
  let combined := serverSeed ++ clientSeed
  let hash := sha256hex combined
  let num := JS.parseInt16 (JS.substring hash 0 8)
  num.map rollOfNum

/-- The sixteen characters a hexadecimal digest is written with. -/
def digestAlphabet : List Char := "0123456789abcdef".data

/-- A string is a SHA-256 hex digest in form: 64 characters, each in `0-9a-f`. -/
def IsHexDigest (h : String) : Prop :=
  h.data.length = 64 ∧ ∀ c ∈ h.data, c ∈ digestAlphabet

instance (h : String) : Decidable (IsHexDigest h) := by
  unfold IsHexDigest; infer_instance

/-- The non-negative integer written by the first 8 hex digits of a digest, most
significant digit first; a digit counts as its position in `0123456789abcdef`. -/
def digestPrefixValue (h : String) : Nat :=
  Nat.ofDigits 16 (((h.data.take 8).map fun c => digestAlphabet.indexOf c).reverse)

/-! ### The runtime of the bot

A method of the bot runs in a JavaScript runtime and may read or change what lives
there: the fields of `this`, the clock, the random source of `crypto`, the console, and
the `Hash` objects it creates.  `Runtime` holds this state; the methods below are
embedded by passing it explicitly, one step per call of the source. -/

/-- The state a method of the bot runs in. -/
structure Runtime where
  /-- Field `this.baseApiUrl`. -/
  baseApiUrl : String
  /-- The value `Date.now()` returns. -/
  clock : Nat
  /-- The bytes the random source of `crypto` hands out, by position. -/
  entropy : Nat → Nat
  /-- The number of random bytes handed out so far. -/
  drawn : Nat
  /-- The lines written to the console so far. -/
  console : List String
  /-- The `Hash` objects created so far, each as the data `update` has fed it; the
  handle of an object is its position. -/
  hashes : List String

/-- Call `crypto.createHash('sha256')`: a new `Hash` object that has been fed nothing;
returns its handle. -/
def Runtime.createHash (rt : Runtime) : Nat × Runtime :=
  (rt.hashes.length, { rt with hashes := rt.hashes ++ [""] })

/-- Call `hash.update(data)` on the object `handle`: the data is appended to what the
object has been fed. -/
def Runtime.hashUpdate (rt : Runtime) (handle : Nat) (data : String) : Runtime :=
  { rt with hashes := rt.hashes.set handle (rt.hashes.getD handle "" ++ data) }

/-- Call `hash.digest('hex')` on the object `handle`: the digest of what the object has
been fed.  (Node lets an object be digested once; the source digests each object it
creates exactly once.) -/
def Runtime.hashDigest (sha256hex : String → String) (rt : Runtime) (handle : Nat) :
    String × Runtime :=
  (sha256hex (rt.hashes.getD handle ""), rt)

/-- Call `crypto.randomBytes(n)`: the next `n` bytes of the random source. -/
def Runtime.randomBytes (rt : Runtime) (n : Nat) : List Nat × Runtime :=
  ((List.range n).map fun k => rt.entropy (rt.drawn + k) % 256,
   { rt with drawn := rt.drawn + n })

/-- Method `buffer.toString('hex')`: two hex digits per byte. -/
def bytesToHex (bytes : List Nat) : String :=
  ⟨bytes.flatMap fun b => [SHA256.hexDigit (b / 16 % 16), SHA256.hexDigit (b % 16)]⟩

/-- Method `generateServerSeed()` (lines 405-407) run in the runtime `rt`. -/
def Runtime.generateServerSeed (rt : Runtime) : String × Runtime :=
  let (bytes, rt₁) := rt.randomBytes 32
  (bytesToHex bytes, rt₁)

/-- Method `generateFairRoll(serverSeed, clientSeed)` (lines 409-415) run in the runtime
`rt`, call by call: `createHash('sha256')`, `update(combined)`, `digest('hex')`, then
`substring`, `parseInt` and the remainder.  Returns the value of the method and the
runtime left behind. -/
def Runtime.generateFairRoll (sha256hex : String → String) (rt : Runtime)
    (serverSeed clientSeed : String) : Option Int × Runtime :=
  let combined := serverSeed ++ clientSeed
  let (handle, rt₁) := rt.createHash
  let rt₂ := rt₁.hashUpdate handle combined
  let (hash, rt₃) := Runtime.hashDigest sha256hex rt₂ handle
  let num := JS.parseInt16 (JS.substring hash 0 8)
  (num.map rollOfNum, rt₃)

/-! ### The `dice` command -/

/-- A number option of a slash command with its declared bounds
(`addNumberOption`, lines 254-259). -/
structure NumberOption where
  name : String
  required : Bool
  minValue : ℚ
  maxValue : ℚ

/-- An integer option of a slash command with its declared bounds
(`addIntegerOption`, lines 260-265). -/
structure IntegerOption where
  name : String
  required : Bool
  minValue : Int
  maxValue : Int

/-- Option `bet` of the dice command: required, between 0.1 and 100. -/
def betOption : NumberOption :=
  { name := "bet", required := true, minValue := 1 / 10, maxValue := 100 }

/-- Option `prediction` of the dice command: required, an integer between 1 and 6. -/
def predictionOption : IntegerOption :=
  { name := "prediction", required := true, minValue := 1, maxValue := 6 }

/-- The values the declared option schema of the dice command admits.  Discord applies
these bounds before the interaction reaches the bot. -/
def optionsAdmit (bet : ℚ) (prediction : Int) : Prop :=
  betOption.minValue ≤ bet ∧ bet ≤ betOption.maxValue ∧
    predictionOption.minValue ≤ prediction ∧ prediction ≤ predictionOption.maxValue

instance (bet : ℚ) (prediction : Int) : Decidable (optionsAdmit bet prediction) := by
  unfold optionsAdmit; infer_instance

/-- What `execute` reads from the interaction (lines 267-269). -/
structure Interaction where
  /-- Field `interaction.user.id`. -/
  userId : String
  /-- Value of `interaction.options.getNumber('bet')`. -/
  bet : ℚ
  /-- Value of `interaction.options.getInteger('prediction')`. -/
  prediction : Int

/-- What one run of the dice command observes of the outside world. -/
structure DiceWorld where
  /-- Field `balanceResponse.data.balance` of the reply to the balance request;
  `none` when the request fails (the promise rejects). -/
  balance : Option ℚ
  /-- Value returned by `generateServerSeed()`: 32 random bytes in hex. -/
  serverSeed : String
  /-- Value returned by `Date.now()`. -/
  now : Nat

/-- Data shown in the embed titled "Dice Roll Result" (lines 303-315). -/
structure DiceResult where
  prediction : Int
  /-- The roll; `none` stands for `NaN`. -/
  roll : Option Int
  bet : ℚ
  won : Bool
  payout : ℚ
  newBalance : ℚ
  /-- Text after "Server:" in the field "Provably Fair": `serverSeed.slice(0, 8)`. -/
  serverShown : String
  /-- Text after "Client:" in the field "Provably Fair":
  `clientSeed.toString().slice(0, 8)`. -/
  clientShown : String
deriving DecidableEq

/-- The replies the dice command edits into the deferred interaction. -/
inductive Reply where
  /-- Embed "Insufficient Balance" (lines 279-285) with the bet and the balance. -/
  | insufficientBalance (bet balance : ℚ)
  /-- Embed "Dice Roll Result" (lines 303-317). -/
  | diceResult (result : DiceResult)
  /-- Text "Failed to process dice roll. Please try again." (line 321). -/
  | failed
deriving DecidableEq

/-- Observable steps of the dice command. -/
inductive Action where
  /-- Call `interaction.deferReply()`. -/
  | deferReply
  /-- Call `axios.post(baseApiUrl + '/balance', { userId })`. -/
  | postBalance (userId : String)
  /-- Call `this.generateServerSeed()`. -/
  | generateServerSeed
  /-- Call `Date.now()`. -/
  | dateNow
  /-- Call `this.processBet(userId, bet, payout)`, which writes one console line. -/
  | processBet (userId : String) (bet payout : ℚ)
  /-- Call `interaction.editReply(...)`. -/
  | editReply (reply : Reply)
  /-- Call `console.error('Dice roll failed:', error)`. -/
  | consoleError
deriving DecidableEq

/-- Handler `execute` of the dice command (lines 266-323): the actions it performs, in
order.  Calls into Discord (`deferReply`, `editReply`) are taken to succeed; the balance
request may fail, which leads to the `catch` block. -/
def diceExecute (sha256hex : String → String) (w : DiceWorld) (interaction : Interaction) :
    List Action :=
  let bet := interaction.bet
  let prediction := interaction.prediction
  let userId := interaction.userId
  [Action.deferReply, Action.postBalance userId] ++
    match w.balance with
    | none => [Action.consoleError, Action.editReply Reply.failed]
    | some balance =>
      if balance < bet then
        [Action.editReply (Reply.insufficientBalance bet balance)]
      else
        let serverSeed := w.serverSeed
        let clientSeed := userId ++ toString w.now
        let roll := generateFairRoll sha256hex serverSeed clientSeed
        let won := decide (roll = some prediction)
        let multiplier : ℚ := 11 / 2
        let payout := if won then bet * multiplier else 0
        let newBalance := balance - bet + payout
        [Action.generateServerSeed, Action.dateNow, Action.processBet userId bet payout,
          Action.editReply (Reply.diceResult
            { prediction := prediction, roll := roll, bet := bet, won := won,
              payout := payout, newBalance := newBalance,
              serverShown := JS.slice serverSeed 0 8,
              clientShown := JS.slice clientSeed 0 8 })]

/-- The reply the user sees: the argument of the first `editReply`. -/
def shownReply (actions : List Action) : Option Reply :=
  actions.findSome? fun a =>
    match a with
    | Action.editReply r => some r
    | _ => none

/-- The `(userId, bet, payout)` arguments of the `processBet` calls, in order. -/
def processBetCalls (actions : List Action) : List (String × ℚ × ℚ) :=
  actions.filterMap fun a =>
    match a with
    | Action.processBet u b p => some (u, b, p)
    | _ => none

/-- Net change of the balance that the `processBet` calls ask for: each call
`processBet(userId, bet, payout)` stands for `-bet ADA, +payout ADA`. -/
def netChange (actions : List Action) : ℚ :=
  ((processBetCalls actions).map fun c => c.2.2 - c.2.1).sum

end CardanoDiceBot

/-! ### The webhook handler -/

namespace Webhook

/-- Object `transaction` of a webhook payload.  The handler reads `amount` and `hash`;
`confirmations` is carried by the payload and never read. -/
structure Transaction where
  amount : ℚ
  hash : String
  confirmations : Nat
deriving DecidableEq

/-- The parsed request body, destructured as `{ transaction, type, userId }` (line 18).
`transaction` is `none` when the body has no such member. -/
structure Payload where
  transaction : Option Transaction
  type : String
  userId : String
deriving DecidableEq

/-- The request: its method and its body; `body = none` when `JSON.parse(event.body)`
throws. -/
structure Event where
  httpMethod : String
  body : Option Payload
deriving DecidableEq

/-- Observable steps of the webhook handler. -/
inductive Action where
  /-- Call `updateUserBalance(userId, amount)` (lines 155-159), which writes the console
  line "Updating balance for userId: +amount ADA". -/
  | updateUserBalance (userId : String) (amount : ℚ)
  /-- Request `POST BOT_API_URL/notify-deposit` with `{ userId, amount, txHash }`. -/
  | notifyDeposit (userId : String) (amount : ℚ) (txHash : String)
  /-- Call `console.error('Webhook error:', error)`. -/
  | consoleError
deriving DecidableEq

/-- Bodies of the responses of the webhook handler. -/
inductive ResponseBody where
  /-- The empty body of the reply to `OPTIONS`. -/
  | empty
  /-- Body `{ success: true, processed: type }`. -/
  | success (processed : String)
  /-- Body `{ error: 'Internal server error' }`. -/
  | internalError
deriving DecidableEq

/-- The response of the handler (the CORS headers are the same in every response and
are left out). -/
structure Response where
  statusCode : Nat
  body : ResponseBody
deriving DecidableEq

/-- The webhook handler (lines 3-52): the actions it performs and its response.
`fetchOk` tells whether the `notify-deposit` request completes without throwing. -/
def handler (fetchOk : Bool) (event : Event) : List Action × Response :=
  if event.httpMethod = "OPTIONS" then
    ([], { statusCode := 200, body := ResponseBody.empty })
  else
    match event.body with
    | none => ([Action.consoleError], { statusCode := 500, body := ResponseBody.internalError })
    | some payload =>
      if payload.type = "deposit_confirmed" then
        match payload.transaction with
        | none =>
          ([Action.consoleError], { statusCode := 500, body := ResponseBody.internalError })
        | some transaction =>
          if fetchOk then
            ([Action.updateUserBalance payload.userId transaction.amount,
              Action.notifyDeposit payload.userId transaction.amount transaction.hash],
             { statusCode := 200, body := ResponseBody.success payload.type })
          else
            ([Action.updateUserBalance payload.userId transaction.amount,
              Action.notifyDeposit payload.userId transaction.amount transaction.hash,
              Action.consoleError],
             { statusCode := 500, body := ResponseBody.internalError })
      else
        ([], { statusCode := 200, body := ResponseBody.success payload.type })

/-- The event `event` with the confirmations count of its transaction replaced by `c`. -/
def withConfirmations (event : Event) (c : Nat) : Event :=
  { event with
    body := event.body.map fun payload =>
      { payload with
        transaction := payload.transaction.map fun t => { t with confirmations := c } } }

/-- The handler keeps no state of its own; what persists between deliveries is the
sequence of actions performed so far.  `deliver` runs the handler on one more event. -/
def deliver (fetchOk : Bool) (log : List Action) (event : Event) : List Action × Response :=
  (log ++ (handler fetchOk event).1, (handler fetchOk event).2)

/-- The amounts passed to `updateUserBalance` for `userId`, in order. -/
def balanceUpdates (userId : String) (log : List Action) : List ℚ :=
  log.filterMap fun a =>
    match a with
    | Action.updateUserBalance u amount => if u = userId then some amount else none
    | _ => none

/-- Total amount credited to `userId`: the sum of the `updateUserBalance` amounts. -/
def credited (userId : String) (log : List Action) : ℚ :=
  (balanceUpdates userId log).sum

end Webhook

/-! ### Concrete inputs -/

namespace Examples

open CardanoDiceBot Webhook

/-- A server seed as `generateServerSeed` produces them: 64 hex digits. -/
def serverSeed : String :=
  "9f86d081884c7d659a2feaa0c55ad015a3bf4f1b2b0b822cd15d6c15b0f00a08"

/-- A world in which the user holds 10.00 ADA. -/
def worldWith10 : DiceWorld :=
  { balance := some 10, serverSeed := serverSeed, now := 1700000000000 }

/-- A world in which the user holds 1.00 ADA. -/
def worldWith1 : DiceWorld :=
  { balance := some 1, serverSeed := serverSeed, now := 1700000000000 }

/-- A bet of 2.00 ADA on the prediction 4. -/
def bet2On4 : Interaction :=
  { userId := "123456789012345678", bet := 2, prediction := 4 }

/-- An interaction outside the declared option bounds: bet -1, prediction 7. -/
def betOutOfBounds : Interaction :=
  { userId := "123456789012345678", bet := -1, prediction := 7 }

/-- A `deposit_confirmed` event for transaction `X` of 5.00 ADA with 3 confirmations. -/
def depositX : Event :=
  { httpMethod := "POST"
    body := some
      { transaction := some { amount := 5, hash := "X", confirmations := 3 }
        type := "deposit_confirmed"
        userId := "123456789012345678" } }

/-- A `deposit_confirmed` event for transaction `Y` of 5.00 ADA with 1 confirmation. -/
def depositY1 : Event :=
  { httpMethod := "POST"
    body := some
      { transaction := some { amount := 5, hash := "Y", confirmations := 1 }
        type := "deposit_confirmed"
        userId := "123456789012345678" } }

/-- A runtime just started: nothing drawn, nothing written, no `Hash` object. -/
def freshRuntime : Runtime :=
  { baseApiUrl := "https://api.swgyub.com/.netlify/functions", clock := 1700000000000,
    entropy := fun _ => 0, drawn := 0, console := [], hashes := [] }

/-- A runtime that has been in use: another API address, a later clock, another random
source partly drawn, console output, and two `Hash` objects already fed. -/
def usedRuntime : Runtime :=
  { baseApiUrl := "http://localhost:8888/.netlify/functions", clock := 1800000000000,
    entropy := fun k => 7 * k + 3, drawn := 5,
    console := ["Processing bet for 123456789012345678: -2 ADA, +0 ADA"],
    hashes := ["abc", "9f86d081"] }

end Examples

/-! ## Theorems -/

set_option maxRecDepth 100000

namespace SHA256

/-- The digest of `abc` (FIPS 180-4, one block). -/
theorem sha256hex_abc :
    sha256hex "abc" = "ba7816bf8f01cfea414140de5dae2223b00361a396177a9cb410ff61f20015ad" := by
  decide

/-- The digest of a 56-character message (FIPS 180-4, two blocks). -/
theorem sha256hex_two_blocks :
    sha256hex "abcdbcdecdefdefgefghfghighijhijkijkljklmklmnlmnomnopnopq"
      = "248d6a61d20638b8e5c026930c3e6039a33ce45964ff2167f6ecedd419db06c1" := by
  decide

/-- A round keeps the number of working variables. -/
theorem round_length (s : List Nat) (kw : Nat × Nat) : (round s kw).length = s.length := by
  unfold round
  split <;> simp

/-- The 64 rounds keep the number of working variables. -/
theorem foldl_round_length (kws : List (Nat × Nat)) (s : List Nat) :
    (kws.foldl round s).length = s.length := by
  induction kws generalizing s with
  | nil => rfl
  | cons kw t ih => rw [List.foldl_cons, ih, round_length]

/-- Compression keeps the number of words of the hash value. -/
theorem compress_length (h block : List Nat) : (compress h block).length = h.length := by
  simp [compress, foldl_round_length]

/-- Compressing any number of blocks keeps the number of words of the hash value. -/
theorem foldl_compress_length (bs : List (List Nat)) (h : List Nat) :
    (bs.foldl compress h).length = h.length := by
  induction bs generalizing h with
  | nil => rfl
  | cons b t ih => rw [List.foldl_cons, ih, compress_length]

/-- A digest has eight words. -/
theorem digestWords_length (bytes : List Nat) : (digestWords bytes).length = 8 := by
  simp [digestWords, foldl_compress_length, H0]

/-- The hex digit of a number below 16 is one of `0-9a-f`. -/
theorem hexDigit_mem (n : Nat) (h : n < 16) : hexDigit n ∈ CardanoDiceBot.digestAlphabet := by
  interval_cases n <;> decide

/-- A word is written with 8 characters. -/
theorem hex32_length (w : Nat) : (hex32 w).length = 8 := by
  simp [hex32]

/-- A word is written with characters in `0-9a-f`. -/
theorem hex32_mem (w : Nat) (c : Char) (h : c ∈ hex32 w) : c ∈ CardanoDiceBot.digestAlphabet := by
  simp only [hex32, List.mem_map] at h
  obtain ⟨i, _, rfl⟩ := h
  exact hexDigit_mem _ (Nat.mod_lt _ (by norm_num))

/-- Words written one after the other take 8 characters each. -/
theorem flatMap_hex32_length (l : List Nat) : (l.flatMap hex32).length = 8 * l.length := by
  induction l with
  | nil => rfl
  | cons w t ih =>
    simp only [List.flatMap_cons, List.length_append, hex32_length, ih, List.length_cons]
    ring

/-- Every digest has digest form: 64 characters, each in `0-9a-f`. -/
theorem sha256hex_isHexDigest (m : String) : CardanoDiceBot.IsHexDigest (sha256hex m) := by
  constructor
  · show ((digestWords (m.data.flatMap utf8)).flatMap hex32).length = 64
    rw [flatMap_hex32_length, digestWords_length]
  · intro c hc
    have hc' : c ∈ (digestWords (m.data.flatMap utf8)).flatMap hex32 := hc
    rw [List.mem_flatMap] at hc'
    obtain ⟨w, _, hw⟩ := hc'
    exact hex32_mem w c hw

end SHA256

namespace CardanoDiceBot
open JS Examples

/-- What `parseInt` sees in a character of a digest: no white space, no sign, no `x`,
a radix-16 digit of value below 16. -/
theorem digestAlphabet_facts (c : Char) (h : c ∈ digestAlphabet) :
    isWhiteSpace c = false ∧ c ≠ '-' ∧ c ≠ '+' ∧ c ≠ 'x' ∧ c ≠ 'X' ∧
      isHexDigit c = true ∧ (hexDigitValue c).getD 0 < 16 := by
  simp only [digestAlphabet, List.mem_cons, List.mem_singleton, List.not_mem_nil, or_false] at h
  rcases h with rfl | rfl | rfl | rfl | rfl | rfl | rfl | rfl | rfl | rfl | rfl | rfl | rfl |
    rfl | rfl | rfl <;> decide

/-- Digest characters are not trimmed as white space. -/
theorem dropWhile_isWhiteSpace_digest (l : List Char) (h : ∀ c ∈ l, c ∈ digestAlphabet) :
    l.dropWhile isWhiteSpace = l := by
  cases l with
  | nil => rfl
  | cons a t =>
    have ha := (digestAlphabet_facts a (h a (List.mem_cons_self a t))).1
    simp [List.dropWhile, ha]

/-- Digest characters are not read as a sign. -/
theorem dropSign_digest (l : List Char) (h : ∀ c ∈ l, c ∈ digestAlphabet) :
    dropSign l = l := by
  cases l with
  | nil => rfl
  | cons a t =>
    have ha := digestAlphabet_facts a (h a (List.mem_cons_self a t))
    unfold dropSign
    split
    · next heq => cases heq; exact absurd rfl ha.2.1
    · next heq => cases heq; exact absurd rfl ha.2.2.1
    · rfl

/-- A run of digest characters has sign `+1`. -/
theorem parseIntSign_digest (l : List Char) (h : ∀ c ∈ l, c ∈ digestAlphabet) :
    parseIntSign l = 1 := by
  cases l with
  | nil => rfl
  | cons a t =>
    have ha := digestAlphabet_facts a (h a (List.mem_cons_self a t))
    unfold parseIntSign
    split
    · next heq => cases heq; exact absurd rfl ha.2.1
    · rfl

/-- A run of digest characters has no `0x` prefix to remove. -/
theorem dropHexPrefix_digest (l : List Char) (h : ∀ c ∈ l, c ∈ digestAlphabet) :
    dropHexPrefix l = l := by
  unfold dropHexPrefix
  split
  · next rest =>
    have hx := digestAlphabet_facts 'x' (h 'x' (by simp))
    exact absurd rfl hx.2.2.2.1
  · next rest =>
    have hx := digestAlphabet_facts 'X' (h 'X' (by simp))
    exact absurd rfl hx.2.2.2.2.1
  · rfl

/-- A run of digest characters is read to its end. -/
theorem takeWhile_isHexDigit_digest (l : List Char) (h : ∀ c ∈ l, c ∈ digestAlphabet) :
    l.takeWhile isHexDigit = l := by
  induction l with
  | nil => rfl
  | cons a t ih =>
    have ha := (digestAlphabet_facts a (h a (List.mem_cons_self a t))).2.2.2.2.2.1
    simp only [List.takeWhile, ha]
    rw [ih (fun c hc => h c (List.mem_cons_of_mem a hc))]

/-- Bound on the digit accumulation of `hexDigitsValue` started at `acc`. -/
theorem foldl_hex_lt (l : List Char) (h : ∀ c ∈ l, c ∈ digestAlphabet) (acc : Nat) :
    l.foldl (fun acc c => 16 * acc + (hexDigitValue c).getD 0) acc
      < (acc + 1) * 16 ^ l.length := by
  induction l generalizing acc with
  | nil => simp
  | cons a t ih =>
    have ha := (digestAlphabet_facts a (h a (List.mem_cons_self a t))).2.2.2.2.2.2
    have := ih (fun c hc => h c (List.mem_cons_of_mem a hc)) (16 * acc + (hexDigitValue a).getD 0)
    simp only [List.foldl_cons, List.length_cons]
    calc _ < (16 * acc + (hexDigitValue a).getD 0 + 1) * 16 ^ t.length := this
      _ ≤ (16 * acc + 16) * 16 ^ t.length := Nat.mul_le_mul_right _ (by omega)
      _ = (acc + 1) * 16 ^ (t.length + 1) := by ring

/-- A run of `k` digest characters denotes a number below `16^k`. -/
theorem hexDigitsValue_lt_pow (l : List Char) (h : ∀ c ∈ l, c ∈ digestAlphabet) :
    hexDigitsValue l < 16 ^ l.length := by
  have := foldl_hex_lt l h 0
  simpa [hexDigitsValue] using this

/-- On a non-empty run of digest characters `parseInt(s, 16)` is its radix-16 value. -/
theorem parseInt16_digest (s : String) (h : ∀ c ∈ s.data, c ∈ digestAlphabet)
    (hne : s.data ≠ []) : parseInt16 s = some (hexDigitsValue s.data : Int) := by
  unfold parseInt16
  simp only [dropWhile_isWhiteSpace_digest _ h, dropSign_digest _ h, dropHexPrefix_digest _ h,
    takeWhile_isHexDigit_digest _ h, parseIntSign_digest _ h]
  cases hs : s.data with
  | nil => exact absurd hs hne
  | cons a t => simp

/-- On a non-negative number, `(num % 6) + 1` is the natural-number remainder plus one. -/
theorem rollOfNum_natCast (n : Nat) : rollOfNum (n : Int) = ((n % 6 + 1 : Nat) : Int) := by
  unfold rollOfNum JS.rem
  rw [Int.tmod_eq_emod (by positivity) (by norm_num)]
  push_cast
  rfl

/-- The value `parseInt` gives a digest character is its position in `0123456789abcdef`. -/
theorem hexDigitValue_eq_indexOf (c : Char) (h : c ∈ digestAlphabet) :
    (hexDigitValue c).getD 0 = digestAlphabet.indexOf c := by
  simp only [digestAlphabet, List.mem_cons, List.mem_singleton, List.not_mem_nil, or_false] at h
  rcases h with rfl | rfl | rfl | rfl | rfl | rfl | rfl | rfl | rfl | rfl | rfl | rfl | rfl |
    rfl | rfl | rfl <;> decide

/-- The digit accumulation of `hexDigitsValue` started at `acc`, as a positional value. -/
theorem foldl_hex_eq_ofDigits (l : List Char) (h : ∀ c ∈ l, c ∈ digestAlphabet) (acc : Nat) :
    l.foldl (fun acc c => 16 * acc + (hexDigitValue c).getD 0) acc
      = acc * 16 ^ l.length
        + Nat.ofDigits 16 ((l.map fun c => digestAlphabet.indexOf c).reverse) := by
  induction l generalizing acc with
  | nil => simp
  | cons a t ih =>
    have ha := hexDigitValue_eq_indexOf a (h a (List.mem_cons_self a t))
    rw [List.foldl_cons, ih (fun c hc => h c (List.mem_cons_of_mem a hc)), ha]
    simp only [List.map_cons, List.reverse_cons, Nat.ofDigits_append, Nat.ofDigits_singleton,
      List.length_cons, List.length_reverse, List.length_map]
    ring

/-- On digest characters `hexDigitsValue` is the positional value in base 16. -/
theorem hexDigitsValue_eq_ofDigits (l : List Char) (h : ∀ c ∈ l, c ∈ digestAlphabet) :
    hexDigitsValue l = Nat.ofDigits 16 ((l.map fun c => digestAlphabet.indexOf c).reverse) := by
  have := foldl_hex_eq_ofDigits l h 0
  simpa [hexDigitsValue] using this

/-- The result of `generateFairRoll` when the digest of the seeds has digest form. -/
theorem generateFairRoll_of_digest (sha256hex : String → String) (serverSeed clientSeed : String)
    (hd : IsHexDigest (sha256hex (serverSeed ++ clientSeed))) :
    generateFairRoll sha256hex serverSeed clientSeed
      = some ((digestPrefixValue (sha256hex (serverSeed ++ clientSeed)) % 6 + 1 : Nat) : Int) := by
  obtain ⟨hlen, hall⟩ := hd
  unfold generateFairRoll
  simp only []
  have hsub : (JS.substring (sha256hex (serverSeed ++ clientSeed)) 0 8).data
      = (sha256hex (serverSeed ++ clientSeed)).data.take 8 := by
    simp [JS.substring]
  have hall8 : ∀ c ∈ (JS.substring (sha256hex (serverSeed ++ clientSeed)) 0 8).data,
      c ∈ digestAlphabet := by
    intro c hc
    rw [hsub] at hc
    exact hall c (List.mem_of_mem_take hc)
  have hne : (JS.substring (sha256hex (serverSeed ++ clientSeed)) 0 8).data ≠ [] := by
    rw [hsub]
    intro h0
    have := congrArg List.length h0
    simp [hlen] at this
  rw [parseInt16_digest _ hall8 hne, hexDigitsValue_eq_ofDigits _ hall8, hsub]
  simp only [Option.map_some']
  rw [rollOfNum_natCast]
  rfl

/-- The 8-digit prefix of a digest denotes a number below `2^32`. -/
theorem digestPrefixValue_lt (h : String) (hd : IsHexDigest h) :
    digestPrefixValue h < 2 ^ 32 := by
  have hall : ∀ c ∈ h.data.take 8, c ∈ digestAlphabet :=
    fun c hc => hd.2 c (List.mem_of_mem_take hc)
  have hlt := hexDigitsValue_lt_pow (h.data.take 8) hall
  have hlen : (h.data.take 8).length = 8 := by simp [hd.1]
  rw [hlen, hexDigitsValue_eq_ofDigits _ hall] at hlt
  exact hlt


/-- C1: when the digest of the concatenated seeds has digest form (64 hex digits),
`generateFairRoll` returns `(n mod 6) + 1` for the non-negative integer `n < 2^32` written
by the first 8 hex digits of that digest, an integer in the range 1..6. -/
theorem generateFairRoll_in_range (sha256hex : String → String) (serverSeed clientSeed : String)
    (hd : IsHexDigest (sha256hex (serverSeed ++ clientSeed))) :
    ∃ n : Nat, n = digestPrefixValue (sha256hex (serverSeed ++ clientSeed)) ∧ n < 2 ^ 32 ∧
      ∃ r : Int, generateFairRoll sha256hex serverSeed clientSeed = some r ∧
        r = ((n % 6 + 1 : Nat) : Int) ∧ 1 ≤ r ∧ r ≤ 6 := by
  refine ⟨_, rfl, ?_, _, generateFairRoll_of_digest sha256hex serverSeed clientSeed hd, rfl, ?_, ?_⟩
  · exact digestPrefixValue_lt _ hd
  · exact_mod_cast Nat.succ_le_succ (Nat.zero_le _)
  · have : digestPrefixValue (sha256hex (serverSeed ++ clientSeed)) % 6 < 6 :=
      Nat.mod_lt _ (by norm_num)
    exact_mod_cast Nat.succ_le_of_lt this

/-- C1 at a concrete input: for the example seeds the SHA-256 digest has digest form and
the roll is in 1..6. -/
theorem generateFairRoll_in_range_witness :
    IsHexDigest (SHA256.sha256hex
      (Examples.serverSeed ++ "1234567890123456781700000000000")) ∧
    ∃ n : Nat,
      n = digestPrefixValue (SHA256.sha256hex
        (Examples.serverSeed ++ "1234567890123456781700000000000")) ∧ n < 2 ^ 32 ∧
      ∃ r : Int, generateFairRoll SHA256.sha256hex Examples.serverSeed
          "1234567890123456781700000000000" = some r ∧
        r = ((n % 6 + 1 : Nat) : Int) ∧ 1 ≤ r ∧ r ≤ 6 :=
  ⟨SHA256.sha256hex_isHexDigest _,
    generateFairRoll_in_range SHA256.sha256hex Examples.serverSeed
      "1234567890123456781700000000000" (SHA256.sha256hex_isHexDigest _)⟩


/-- Number of `n < 2^32` with `(n % 6) + 1 = k + 1`, for a residue `k < 6`. -/
theorem rollOfNum_count (k : Nat) (hk : k < 6) :
    ((Finset.range (2 ^ 32)).filter (fun n : ℕ => rollOfNum (n : ℤ) = ((k + 1 : ℕ) : ℤ))).card
      = 2 ^ 32 / 6 + if k < 4 then 1 else 0 := by
  have hfilter : (Finset.range (2 ^ 32)).filter (fun n : ℕ => rollOfNum (n : ℤ) = ((k + 1 : ℕ) : ℤ))
      = (Finset.range (2 ^ 32)).filter (fun n : ℕ => n ≡ k [MOD 6]) := by
    apply Finset.filter_congr
    intro n _
    rw [rollOfNum_natCast, Nat.cast_inj, Nat.ModEq, Nat.mod_eq_of_lt hk]
    omega
  rw [hfilter, ← Nat.count_eq_card_filter_range, Nat.count_modEq_card _ (by norm_num),
    Nat.mod_eq_of_lt hk]
  norm_num

/-- C10: over the 2^32 values a parsed 8-digit hex prefix can take, the reduction
`(num % 6) + 1` of `generateFairRoll` yields each of the outcomes 1, 2, 3, 4 for exactly
715827883 values and each of the outcomes 5, 6 for exactly 715827882 values; the counts
of any outcome in 1..4 and any outcome in 5..6 differ by exactly one. -/
theorem rollOfNum_distribution :
    ((Finset.range (2 ^ 32)).filter (fun n : ℕ => rollOfNum (n : ℤ) = 1)).card = 715827883 ∧
    ((Finset.range (2 ^ 32)).filter (fun n : ℕ => rollOfNum (n : ℤ) = 2)).card = 715827883 ∧
    ((Finset.range (2 ^ 32)).filter (fun n : ℕ => rollOfNum (n : ℤ) = 3)).card = 715827883 ∧
    ((Finset.range (2 ^ 32)).filter (fun n : ℕ => rollOfNum (n : ℤ) = 4)).card = 715827883 ∧
    ((Finset.range (2 ^ 32)).filter (fun n : ℕ => rollOfNum (n : ℤ) = 5)).card = 715827882 ∧
    ((Finset.range (2 ^ 32)).filter (fun n : ℕ => rollOfNum (n : ℤ) = 6)).card = 715827882 ∧
    ((Finset.range (2 ^ 32)).filter (fun n : ℕ => rollOfNum (n : ℤ) = 4)).card
      = ((Finset.range (2 ^ 32)).filter (fun n : ℕ => rollOfNum (n : ℤ) = 5)).card + 1 := by
  have h0 := rollOfNum_count 0 (by norm_num)
  have h1 := rollOfNum_count 1 (by norm_num)
  have h2 := rollOfNum_count 2 (by norm_num)
  have h3 := rollOfNum_count 3 (by norm_num)
  have h4 := rollOfNum_count 4 (by norm_num)
  have h5 := rollOfNum_count 5 (by norm_num)
  norm_num at h0 h1 h2 h3 h4 h5
  refine ⟨h0, h1, h2, h3, h4, h5, ?_⟩
  norm_num
  omega


/-- The actions of a run whose balance request succeeds and whose funds check passes. -/
theorem diceExecute_of_funds (sha256hex : String → String) (w : DiceWorld) (i : Interaction)
    (balance : ℚ) (hbal : w.balance = some balance) (hfunds : i.bet ≤ balance) :
    diceExecute sha256hex w i =
      [Action.deferReply, Action.postBalance i.userId, Action.generateServerSeed,
        Action.dateNow,
        Action.processBet i.userId i.bet
          (if generateFairRoll sha256hex w.serverSeed (i.userId ++ toString w.now)
              = some i.prediction then i.bet * (11 / 2) else 0),
        Action.editReply (Reply.diceResult
          { prediction := i.prediction
            roll := generateFairRoll sha256hex w.serverSeed (i.userId ++ toString w.now)
            bet := i.bet
            won := decide (generateFairRoll sha256hex w.serverSeed (i.userId ++ toString w.now)
              = some i.prediction)
            payout := if generateFairRoll sha256hex w.serverSeed (i.userId ++ toString w.now)
              = some i.prediction then i.bet * (11 / 2) else 0
            newBalance := balance - i.bet +
              if generateFairRoll sha256hex w.serverSeed (i.userId ++ toString w.now)
                = some i.prediction then i.bet * (11 / 2) else 0
            serverShown := JS.slice w.serverSeed 0 8
            clientShown := JS.slice (i.userId ++ toString w.now) 0 8 })] := by
  have hnot : ¬ balance < i.bet := not_lt.mpr hfunds
  simp [diceExecute, hbal, hnot]

/-- The actions of a run whose balance request succeeds and whose funds check fails. -/
theorem diceExecute_of_short (sha256hex : String → String) (w : DiceWorld) (i : Interaction)
    (balance : ℚ) (hbal : w.balance = some balance) (hlt : balance < i.bet) :
    diceExecute sha256hex w i =
      [Action.deferReply, Action.postBalance i.userId,
        Action.editReply (Reply.insufficientBalance i.bet balance)] := by
  simp [diceExecute, hbal, hlt]

/-- C2: when the funds check passes (`bet ≤ balance`), the payout is `bet * 5.5` if the
roll equals the prediction and 0 otherwise, `processBet` is called with that payout, and
the reported new balance is `balance - bet + payout`. -/
theorem dice_payout_and_newBalance (sha256hex : String → String) (w : DiceWorld)
    (i : Interaction) (balance : ℚ) (hbal : w.balance = some balance)
    (hfunds : i.bet ≤ balance) :
    ∃ r : DiceResult,
      shownReply (diceExecute sha256hex w i) = some (Reply.diceResult r) ∧
      r.roll = generateFairRoll sha256hex w.serverSeed (i.userId ++ toString w.now) ∧
      r.payout = (if r.roll = some i.prediction then i.bet * 5.5 else 0) ∧
      r.newBalance = balance - i.bet + r.payout ∧
      processBetCalls (diceExecute sha256hex w i) = [(i.userId, i.bet, r.payout)] := by
  rw [diceExecute_of_funds sha256hex w i balance hbal hfunds]
  refine ⟨_, rfl, rfl, ?_, rfl, rfl⟩
  norm_num

/-- C3: when `balance < bet`, the dice command replies "Insufficient Balance" and does
nothing else: no server seed is generated, the clock is not read, `processBet` is never
called, and the net balance change asked for is zero. -/
theorem dice_rejects_insufficient_funds (sha256hex : String → String) (w : DiceWorld)
    (i : Interaction) (balance : ℚ) (hbal : w.balance = some balance)
    (hlt : balance < i.bet) :
    diceExecute sha256hex w i =
      [Action.deferReply, Action.postBalance i.userId,
        Action.editReply (Reply.insufficientBalance i.bet balance)] ∧
    shownReply (diceExecute sha256hex w i) = some (Reply.insufficientBalance i.bet balance) ∧
    Action.generateServerSeed ∉ diceExecute sha256hex w i ∧
    Action.dateNow ∉ diceExecute sha256hex w i ∧
    processBetCalls (diceExecute sha256hex w i) = [] ∧
    netChange (diceExecute sha256hex w i) = 0 := by
  rw [diceExecute_of_short sha256hex w i balance hbal hlt]
  refine ⟨rfl, rfl, by simp, by simp, rfl, ?_⟩
  simp [netChange, processBetCalls]

/-- C6: with `0 < bet ≤ balance` the new balance the dice command computes is never
negative; with `balance < bet` the command replies "Insufficient Balance" and no result
carrying a new balance is ever produced. -/
theorem dice_newBalance_nonneg (sha256hex : String → String) (w : DiceWorld)
    (i : Interaction) (balance : ℚ) (hbal : w.balance = some balance) :
    (0 < i.bet → i.bet ≤ balance →
      ∃ r : DiceResult, shownReply (diceExecute sha256hex w i) = some (Reply.diceResult r) ∧
        r.newBalance = balance - i.bet + r.payout ∧ 0 ≤ r.payout ∧ 0 ≤ r.newBalance) ∧
    (balance < i.bet →
      shownReply (diceExecute sha256hex w i) = some (Reply.insufficientBalance i.bet balance) ∧
        ∀ r : DiceResult, Action.editReply (Reply.diceResult r) ∉ diceExecute sha256hex w i) := by
  constructor
  · intro hpos hfunds
    rw [diceExecute_of_funds sha256hex w i balance hbal hfunds]
    refine ⟨_, rfl, rfl, ?_, ?_⟩
    · dsimp only
      split
      · positivity
      · exact le_refl 0
    · dsimp only
      split
      · have : 0 ≤ balance - i.bet := sub_nonneg.mpr hfunds
        positivity
      · simpa using hfunds
  · intro hlt
    rw [diceExecute_of_short sha256hex w i balance hbal hlt]
    refine ⟨rfl, ?_⟩
    intro r
    simp

/-- The roll in a "Dice Roll Result" reply is `generateFairRoll` of the server seed and
the client seed `userId + Date.now()` of the run. -/
theorem shown_roll_eq (sha256hex : String → String) (w : DiceWorld) (i : Interaction)
    (r : DiceResult)
    (h : shownReply (diceExecute sha256hex w i) = some (Reply.diceResult r)) :
    r.roll = generateFairRoll sha256hex w.serverSeed (i.userId ++ toString w.now) ∧
      r.serverShown = JS.slice w.serverSeed 0 8 ∧
      r.clientShown = JS.slice (i.userId ++ toString w.now) 0 8 := by
  cases hb : w.balance with
  | none => simp [diceExecute, hb, shownReply] at h
  | some balance =>
    by_cases hlt : balance < i.bet
    · simp [diceExecute, hb, hlt, shownReply] at h
    · simp [diceExecute, hb, hlt, shownReply] at h
      rw [← h]
      exact ⟨rfl, rfl, rfl⟩

/-- A `Hash` object that has just been created and fed `data` holds `data`, and the
objects created before it are as they were. -/
theorem hashes_after_update (rt : Runtime) (data : String) :
    (rt.createHash.2.hashUpdate rt.createHash.1 data).hashes = rt.hashes ++ [data] := by
  simp [Runtime.createHash, Runtime.hashUpdate, List.getD_eq_getElem?_getD]

/-- The digest read in `generateFairRoll` is the digest of the concatenated seeds, whatever
the runtime holds. -/
theorem generateFairRoll_run (sha256hex : String → String) (rt : Runtime)
    (serverSeed clientSeed : String) :
    rt.generateFairRoll sha256hex serverSeed clientSeed =
      (generateFairRoll sha256hex serverSeed clientSeed,
        { rt with hashes := rt.hashes ++ [serverSeed ++ clientSeed] }) := by
  have h := hashes_after_update rt (serverSeed ++ clientSeed)
  simp only [Runtime.generateFairRoll, Runtime.hashDigest, generateFairRoll]
  rw [h]
  simp [Runtime.createHash, Runtime.hashUpdate, List.getD_eq_getElem?_getD]

/-- In contrast with `generateFairRoll`, the result of `generateServerSeed` depends on the
runtime: two runtimes with different random sources give different seeds. -/
theorem generateServerSeed_depends_on_runtime :
    freshRuntime.generateServerSeed.1 ≠ usedRuntime.generateServerSeed.1 := by
  decide

/-- The example roll evaluated in two different runtimes. -/
theorem example_roll_in_runtimes :
    (freshRuntime.generateFairRoll SHA256.sha256hex Examples.serverSeed
      "1234567890123456781700000000000").1 = some 4 ∧
    (usedRuntime.generateFairRoll SHA256.sha256hex Examples.serverSeed
      "1234567890123456781700000000000").1 = some 4 := by
  constructor <;> decide

/-- C7: `generateFairRoll` is a pure function of its two arguments.  Run with the same
seeds in any two runtimes (whatever their clock, random source, console, bot fields and
existing `Hash` objects), it returns the same outcome; run again in the runtime it leaves
behind, it returns that outcome again; the outcome is the function
`generateFairRoll sha256hex serverSeed clientSeed` of the two seeds; and the run changes
nothing of the runtime except for adding the one `Hash` object it creates and feeds. -/
theorem generateFairRoll_pure (sha256hex : String → String) (rt₁ rt₂ : Runtime)
    (serverSeed clientSeed : String) :
    (rt₁.generateFairRoll sha256hex serverSeed clientSeed).1
      = (rt₂.generateFairRoll sha256hex serverSeed clientSeed).1 ∧
    ((rt₁.generateFairRoll sha256hex serverSeed clientSeed).2.generateFairRoll sha256hex
        serverSeed clientSeed).1
      = (rt₁.generateFairRoll sha256hex serverSeed clientSeed).1 ∧
    (rt₁.generateFairRoll sha256hex serverSeed clientSeed).1
      = generateFairRoll sha256hex serverSeed clientSeed ∧
    (rt₁.generateFairRoll sha256hex serverSeed clientSeed).2
      = { rt₁ with hashes := rt₁.hashes ++ [serverSeed ++ clientSeed] } := by
  refine ⟨?_, ?_, ?_, ?_⟩
  · rw [generateFairRoll_run, generateFairRoll_run]
  · rw [generateFairRoll_run, generateFairRoll_run]
  · rw [generateFairRoll_run]
  · rw [generateFairRoll_run]

/-- The roll of the example run: the digest of the seeds begins `59b2e18d`. -/
theorem example_roll :
    generateFairRoll SHA256.sha256hex Examples.serverSeed
      ("123456789012345678" ++ toString (1700000000000 : Nat)) = some 4 := by
  decide

/-- C2, scenario A: balance 10.00, bet 2.00 on prediction 4, roll 4: the payout is 11.00
and the new balance 19.00. -/
theorem dice_payout_and_newBalance_witness :
    (worldWith10.balance = some 10 ∧ bet2On4.bet ≤ 10) ∧
    ∃ r : DiceResult,
      shownReply (diceExecute SHA256.sha256hex worldWith10 bet2On4) = some (Reply.diceResult r) ∧
      r.roll = some 4 ∧ r.payout = 11 ∧ r.newBalance = 19 := by
  refine ⟨⟨rfl, by norm_num [bet2On4]⟩, ?_⟩
  obtain ⟨r, hr, hroll, hpay, hnew, _⟩ :=
    dice_payout_and_newBalance SHA256.sha256hex worldWith10 bet2On4 10 rfl (by norm_num [bet2On4])
  have hroll : r.roll = some 4 := hroll.trans example_roll
  have hpay11 : r.payout = 11 := by
    rw [hpay, hroll]
    norm_num [bet2On4]
  refine ⟨r, hr, hroll, hpay11, ?_⟩
  rw [hnew, hpay11]
  norm_num [bet2On4]

/-- C3, scenario B: balance 1.00, bet 2.00 is rejected; no bet is processed. -/
theorem dice_rejects_insufficient_funds_witness :
    (worldWith1.balance = some 1 ∧ (1 : ℚ) < bet2On4.bet) ∧
    shownReply (diceExecute SHA256.sha256hex worldWith1 bet2On4)
      = some (Reply.insufficientBalance 2 1) ∧
    processBetCalls (diceExecute SHA256.sha256hex worldWith1 bet2On4) = [] ∧
    netChange (diceExecute SHA256.sha256hex worldWith1 bet2On4) = 0 :=
  have h := dice_rejects_insufficient_funds SHA256.sha256hex worldWith1 bet2On4 1 rfl
    (by norm_num [bet2On4])
  ⟨⟨rfl, by norm_num [bet2On4]⟩, h.2.1, h.2.2.2.2.1, h.2.2.2.2.2⟩

/-- C6 at concrete inputs: a bet of 2.00 from 10.00 leaves a non-negative balance; a bet
of 2.00 from 1.00 is stopped at the funds check. -/
theorem dice_newBalance_nonneg_witness :
    (worldWith10.balance = some 10 ∧ (0 : ℚ) < bet2On4.bet ∧ bet2On4.bet ≤ 10 ∧
      ∃ r : DiceResult,
        shownReply (diceExecute SHA256.sha256hex worldWith10 bet2On4) = some (Reply.diceResult r) ∧
        0 ≤ r.newBalance) ∧
    (worldWith1.balance = some 1 ∧ (1 : ℚ) < bet2On4.bet ∧
      shownReply (diceExecute SHA256.sha256hex worldWith1 bet2On4)
        = some (Reply.insufficientBalance bet2On4.bet 1)) := by
  have hpos : (0 : ℚ) < bet2On4.bet := by norm_num [bet2On4]
  have hle : bet2On4.bet ≤ 10 := by norm_num [bet2On4]
  have hlt : (1 : ℚ) < bet2On4.bet := by norm_num [bet2On4]
  obtain ⟨r, hr, _, _, hnn⟩ :=
    (dice_newBalance_nonneg SHA256.sha256hex worldWith10 bet2On4 10 rfl).1 hpos hle
  exact ⟨⟨rfl, hpos, hle, r, hr, hnn⟩, rfl, hlt,
    ((dice_newBalance_nonneg SHA256.sha256hex worldWith1 bet2On4 1 rfl).2 hlt).1⟩


/-- The example run: 10.00 ADA and a bet of 2.00 on 4, which wins. -/
theorem example_run_reply :
    shownReply (diceExecute SHA256.sha256hex worldWith10 bet2On4)
      = some (Reply.diceResult
          { prediction := 4, roll := some 4, bet := 2, won := true, payout := 11,
            newBalance := 19, serverShown := "9f86d081", clientShown := "12345678" }) := by
  rw [diceExecute_of_funds SHA256.sha256hex worldWith10 bet2On4 10 rfl (by norm_num [bet2On4])]
  have hroll : generateFairRoll SHA256.sha256hex worldWith10.serverSeed
      (bet2On4.userId ++ toString worldWith10.now) = some 4 := example_roll
  have hs : JS.slice worldWith10.serverSeed 0 8 = "9f86d081" := by decide
  have hc : JS.slice (bet2On4.userId ++ toString worldWith10.now) 0 8 = "12345678" := by decide
  rw [hroll, hs, hc]
  simp only [shownReply, List.findSome?]
  norm_num [bet2On4]

/-- The roll of the shown prefixes of the example seeds: the digest begins `0a800c9a`. -/
theorem example_roll_of_shown :
    generateFairRoll SHA256.sha256hex "9f86d081" "12345678" = some 5 := by
  decide

/-- C8 fails as stated: a settled bet shows `9f86d081` and `12345678`, the first 8
characters of a 64-character server seed and of a 31-character client seed.  The shown
strings are not the seeds, and `generateFairRoll` applied to them gives 5 while the
reported roll is 4. -/
theorem dice_result_shows_truncated_seeds :
    shownReply (diceExecute SHA256.sha256hex worldWith10 bet2On4)
      = some (Reply.diceResult
          { prediction := 4, roll := some 4, bet := 2, won := true, payout := 11,
            newBalance := 19, serverShown := "9f86d081", clientShown := "12345678" }) ∧
    "9f86d081" ≠ worldWith10.serverSeed ∧
    "12345678" ≠ bet2On4.userId ++ toString worldWith10.now ∧
    generateFairRoll SHA256.sha256hex "9f86d081" "12345678" = some 5 :=
  ⟨example_run_reply, by decide, by decide, example_roll_of_shown⟩

/-- C8 as amended: a settled bet reports the roll `generateFairRoll(serverSeed, clientSeed)`
of the full server seed and the full client seed `userId + Date.now()`, and shows of each
seed only its first 8 characters. -/
theorem dice_result_shows_seed_prefixes (sha256hex : String → String) (w : DiceWorld)
    (i : Interaction) (r : DiceResult)
    (h : shownReply (diceExecute sha256hex w i) = some (Reply.diceResult r)) :
    r.roll = generateFairRoll sha256hex w.serverSeed (i.userId ++ toString w.now) ∧
    r.serverShown.data = w.serverSeed.data.take 8 ∧
    r.clientShown.data = (i.userId ++ toString w.now).data.take 8 ∧
    r.serverShown.length ≤ 8 ∧ r.clientShown.length ≤ 8 := by
  obtain ⟨hroll, hs, hc⟩ := shown_roll_eq sha256hex w i r h
  refine ⟨hroll, ?_, ?_, ?_, ?_⟩
  · rw [hs]; simp [JS.slice]
  · rw [hc]; simp [JS.slice]
  · rw [hs]; exact List.length_take_le 8 (w.serverSeed.data.drop 0)
  · rw [hc]; exact List.length_take_le 8 ((i.userId ++ toString w.now).data.drop 0)

/-- C8 as amended, at the example run: the reply shows `9f86d081` and `12345678`, the
first 8 characters of the two seeds, and reports the roll of the full seeds. -/
theorem dice_result_shows_seed_prefixes_witness :
    shownReply (diceExecute SHA256.sha256hex worldWith10 bet2On4)
      = some (Reply.diceResult
          { prediction := 4, roll := some 4, bet := 2, won := true, payout := 11,
            newBalance := 19, serverShown := "9f86d081", clientShown := "12345678" }) ∧
    some (4 : Int) = generateFairRoll SHA256.sha256hex worldWith10.serverSeed
      (bet2On4.userId ++ toString worldWith10.now) ∧
    "9f86d081".data = worldWith10.serverSeed.data.take 8 ∧
    "12345678".data = (bet2On4.userId ++ toString worldWith10.now).data.take 8 :=
  have h := dice_result_shows_seed_prefixes SHA256.sha256hex worldWith10 bet2On4 _ example_run_reply
  ⟨example_run_reply, h.1, h.2.1, h.2.2.1⟩

/-- C9 fails as stated: given the bet -1 and the prediction 7 with a balance of 10.00,
`execute` reports no invalid wager: it passes the funds check, rolls, calls `processBet`
and shows a result with new balance 11.00. -/
theorem dice_execute_accepts_invalid_wager :
    ¬ optionsAdmit betOutOfBounds.bet betOutOfBounds.prediction ∧
    diceExecute SHA256.sha256hex worldWith10 betOutOfBounds =
      [Action.deferReply, Action.postBalance "123456789012345678",
        Action.generateServerSeed, Action.dateNow,
        Action.processBet "123456789012345678" (-1) 0,
        Action.editReply (Reply.diceResult
          { prediction := 7, roll := some 4, bet := -1, won := false, payout := 0,
            newBalance := 11, serverShown := "9f86d081", clientShown := "12345678" })] := by
  constructor
  · norm_num [optionsAdmit, betOutOfBounds, betOption, predictionOption]
  · rw [diceExecute_of_funds SHA256.sha256hex worldWith10 betOutOfBounds 10 rfl
      (by norm_num [betOutOfBounds])]
    have hs : JS.slice worldWith10.serverSeed 0 8 = "9f86d081" := by decide
    have hc : JS.slice (betOutOfBounds.userId ++ toString worldWith10.now) 0 8 = "12345678" := by
      decide
    have hroll : generateFairRoll SHA256.sha256hex worldWith10.serverSeed
        (betOutOfBounds.userId ++ toString worldWith10.now) = some 4 := example_roll
    rw [hroll, hs, hc]
    norm_num [betOutOfBounds]

/-- C9 as amended: the option schema of the dice command admits only a bet in
0.1..100 (so `bet > 0`) and a prediction in 1..6; `execute` itself validates neither:
whatever bet and prediction it is given, it goes to the funds check, replying
"Insufficient Balance" when `balance < bet` and settling the bet otherwise. -/
theorem dice_validation_is_the_schema (sha256hex : String → String) (w : DiceWorld)
    (i : Interaction) (balance : ℚ) (hbal : w.balance = some balance) :
    (optionsAdmit i.bet i.prediction →
      0 < i.bet ∧ i.bet ≤ 100 ∧ 1 ≤ i.prediction ∧ i.prediction ≤ 6) ∧
    (balance < i.bet →
      shownReply (diceExecute sha256hex w i) = some (Reply.insufficientBalance i.bet balance)) ∧
    (i.bet ≤ balance →
      ∃ r : DiceResult, shownReply (diceExecute sha256hex w i) = some (Reply.diceResult r) ∧
        processBetCalls (diceExecute sha256hex w i) = [(i.userId, i.bet, r.payout)]) := by
  refine ⟨?_, ?_, ?_⟩
  · rintro ⟨h1, h2, h3, h4⟩
    simp only [betOption, predictionOption] at h1 h2 h3 h4
    exact ⟨lt_of_lt_of_le (by norm_num) h1, h2, h3, h4⟩
  · intro hlt
    rw [diceExecute_of_short sha256hex w i balance hbal hlt]
    rfl
  · intro hfunds
    rw [diceExecute_of_funds sha256hex w i balance hbal hfunds]
    exact ⟨_, rfl, rfl⟩

/-- C9 as amended, at concrete inputs: the bet 2.00 on 4 is admitted by the schema and
settled; the bet -1 on 7 is not admitted by the schema, yet `execute` settles it. -/
theorem dice_validation_is_the_schema_witness :
    worldWith10.balance = some 10 ∧
    (optionsAdmit bet2On4.bet bet2On4.prediction ∧ 0 < bet2On4.bet) ∧
    (¬ optionsAdmit betOutOfBounds.bet betOutOfBounds.prediction ∧
      betOutOfBounds.bet ≤ 10 ∧
      ∃ r : DiceResult,
        shownReply (diceExecute SHA256.sha256hex worldWith10 betOutOfBounds)
          = some (Reply.diceResult r)) := by
  have hadm : optionsAdmit bet2On4.bet bet2On4.prediction := by
    norm_num [optionsAdmit, bet2On4, betOption, predictionOption]
  have hle : betOutOfBounds.bet ≤ 10 := by norm_num [betOutOfBounds]
  obtain ⟨r, hr, _⟩ :=
    (dice_validation_is_the_schema SHA256.sha256hex worldWith10 betOutOfBounds 10 rfl).2.2 hle
  refine ⟨rfl, ⟨hadm,
    ((dice_validation_is_the_schema SHA256.sha256hex worldWith10 bet2On4 10 rfl).1 hadm).1⟩, ?_, hle,
    r, hr⟩
  norm_num [optionsAdmit, betOutOfBounds, betOption, predictionOption]

end CardanoDiceBot

namespace Webhook
open Examples

/-- What the handler does with a `deposit_confirmed` event that carries a transaction. -/
theorem handler_deposit (fetchOk : Bool) (event : Event) (payload : Payload)
    (t : Transaction) (hm : event.httpMethod ≠ "OPTIONS") (hb : event.body = some payload)
    (hty : payload.type = "deposit_confirmed") (ht : payload.transaction = some t) :
    handler fetchOk event =
      if fetchOk then
        ([Action.updateUserBalance payload.userId t.amount,
          Action.notifyDeposit payload.userId t.amount t.hash],
         { statusCode := 200, body := ResponseBody.success "deposit_confirmed" })
      else
        ([Action.updateUserBalance payload.userId t.amount,
          Action.notifyDeposit payload.userId t.amount t.hash, Action.consoleError],
         { statusCode := 500, body := ResponseBody.internalError }) := by
  simp [handler, hm, hb, hty, ht]

/-- The balance updates of a log followed by another. -/
theorem balanceUpdates_append (userId : String) (l₁ l₂ : List Action) :
    balanceUpdates userId (l₁ ++ l₂) = balanceUpdates userId l₁ ++ balanceUpdates userId l₂ := by
  simp [balanceUpdates, List.filterMap_append]

/-- Credits add up over a log followed by another. -/
theorem credited_append (userId : String) (l₁ l₂ : List Action) :
    credited userId (l₁ ++ l₂) = credited userId l₁ + credited userId l₂ := by
  simp [credited, balanceUpdates_append, List.sum_append]

/-- One delivery of a `deposit_confirmed` event with a transaction updates the balance
once, by the amount of the transaction, whether or not the notification succeeds. -/
theorem balanceUpdates_handler_deposit (fetchOk : Bool) (event : Event) (payload : Payload)
    (t : Transaction) (hm : event.httpMethod ≠ "OPTIONS") (hb : event.body = some payload)
    (hty : payload.type = "deposit_confirmed") (ht : payload.transaction = some t) :
    balanceUpdates payload.userId (handler fetchOk event).1 = [t.amount] := by
  rw [handler_deposit fetchOk event payload t hm hb hty ht]
  cases fetchOk <;> simp [balanceUpdates]

/-- C4 fails as stated: the 5.00 deposit `X` delivered twice makes the handler call
`updateUserBalance` twice, 10.00 in total, and the second delivery is answered like the
first, with `{ success: true, processed: 'deposit_confirmed' }`. -/
theorem duplicate_deposit_credited_twice :
    deliver true [] depositX =
      ([Action.updateUserBalance "123456789012345678" 5,
        Action.notifyDeposit "123456789012345678" 5 "X"],
       { statusCode := 200, body := ResponseBody.success "deposit_confirmed" }) ∧
    deliver true (deliver true [] depositX).1 depositX =
      ([Action.updateUserBalance "123456789012345678" 5,
        Action.notifyDeposit "123456789012345678" 5 "X",
        Action.updateUserBalance "123456789012345678" 5,
        Action.notifyDeposit "123456789012345678" 5 "X"],
       { statusCode := 200, body := ResponseBody.success "deposit_confirmed" }) ∧
    credited "123456789012345678" (deliver true (deliver true [] depositX).1 depositX).1
      = 10 := by
  have h : handler true depositX =
      ([Action.updateUserBalance "123456789012345678" 5,
        Action.notifyDeposit "123456789012345678" 5 "X"],
       { statusCode := 200, body := ResponseBody.success "deposit_confirmed" }) := by
    simp [handler, depositX]
  refine ⟨?_, ?_, ?_⟩
  · simp [deliver, h]
  · simp [deliver, h]
  · simp only [deliver, h, credited, balanceUpdates, List.nil_append, List.cons_append,
      List.filterMap_cons, List.filterMap_nil, if_true, List.sum_cons, List.sum_nil]
    norm_num

/-- C4 as amended: the handler keeps no record of the transactions it has processed.
Every delivery of a `deposit_confirmed` event with a transaction calls
`updateUserBalance(userId, amount)` exactly once, so two deliveries of the same event
credit twice the amount, and every delivery whose notification succeeds is answered with
status 200 and `{ success: true, processed: 'deposit_confirmed' }`. -/
theorem duplicate_deposit_not_deduplicated (f₁ f₂ : Bool) (log : List Action) (event : Event)
    (payload : Payload) (t : Transaction) (hm : event.httpMethod ≠ "OPTIONS")
    (hb : event.body = some payload) (hty : payload.type = "deposit_confirmed")
    (ht : payload.transaction = some t) :
    balanceUpdates payload.userId (handler f₁ event).1 = [t.amount] ∧
    balanceUpdates payload.userId (handler f₂ event).1 = [t.amount] ∧
    credited payload.userId (deliver f₂ (deliver f₁ log event).1 event).1
      = credited payload.userId log + 2 * t.amount ∧
    (f₂ = true → (deliver f₂ (deliver f₁ log event).1 event).2
      = { statusCode := 200, body := ResponseBody.success "deposit_confirmed" }) := by
  have h₁ := balanceUpdates_handler_deposit f₁ event payload t hm hb hty ht
  have h₂ := balanceUpdates_handler_deposit f₂ event payload t hm hb hty ht
  refine ⟨h₁, h₂, ?_, ?_⟩
  · simp only [deliver, credited_append]
    simp only [credited, h₁, h₂, List.sum_cons, List.sum_nil]
    ring
  · intro hf
    subst hf
    simp [deliver, handler_deposit true event payload t hm hb hty ht]

/-- C4 as amended, at the deposit `X` of 5.00 delivered twice: 10.00 is credited. -/
theorem duplicate_deposit_not_deduplicated_witness :
    (depositX.httpMethod ≠ "OPTIONS" ∧
      depositX.body = some
        { transaction := some { amount := 5, hash := "X", confirmations := 3 }
          type := "deposit_confirmed", userId := "123456789012345678" }) ∧
    credited "123456789012345678" (deliver true (deliver true [] depositX).1 depositX).1
      = credited "123456789012345678" [] + 2 * 5 :=
  ⟨⟨by decide, rfl⟩,
    (duplicate_deposit_not_deduplicated true true [] depositX
      { transaction := some { amount := 5, hash := "X", confirmations := 3 }
        type := "deposit_confirmed", userId := "123456789012345678" }
      { amount := 5, hash := "X", confirmations := 3 } (by decide) rfl rfl rfl).2.2.1⟩

/-- C5 fails as stated: the deposit `Y` with 1 confirmation, below a minimum of 3, is
credited: the handler calls `updateUserBalance` with 5.00 and answers with status 200. -/
theorem low_confirmation_deposit_credited :
    (1 : Nat) < 3 ∧
    depositY1.body.bind (fun p => p.transaction.map fun t => t.confirmations) = some 1 ∧
    handler true depositY1 =
      ([Action.updateUserBalance "123456789012345678" 5,
        Action.notifyDeposit "123456789012345678" 5 "Y"],
       { statusCode := 200, body := ResponseBody.success "deposit_confirmed" }) := by
  refine ⟨by norm_num, rfl, ?_⟩
  simp [handler, depositY1]

/-- C5 as amended: the handler has no minimum of confirmations and never reads the
confirmations count: changing the count of an event changes nothing of what the handler
does, and every `deposit_confirmed` event with a transaction is credited by one call of
`updateUserBalance`, whatever its count. -/
theorem confirmations_ignored (fetchOk : Bool) (event : Event) (payload : Payload)
    (t : Transaction) (c : Nat) (hm : event.httpMethod ≠ "OPTIONS")
    (hb : event.body = some payload) (hty : payload.type = "deposit_confirmed")
    (ht : payload.transaction = some t) :
    handler fetchOk (withConfirmations event c) = handler fetchOk event ∧
    balanceUpdates payload.userId (handler fetchOk (withConfirmations event c)).1
      = [t.amount] := by
  have hsame : handler fetchOk (withConfirmations event c) = handler fetchOk event := by
    rw [handler_deposit fetchOk event payload t hm hb hty ht,
      handler_deposit fetchOk (withConfirmations event c)
        { payload with transaction := some { t with confirmations := c } }
        { t with confirmations := c } hm (by simp [withConfirmations, hb, ht]) hty rfl]
  exact ⟨hsame, by rw [hsame]; exact balanceUpdates_handler_deposit fetchOk event payload t hm hb hty ht⟩

/-- C5 as amended, at the deposit `X`: with its 3 confirmations replaced by 1 the
handler does the same, and credits 5.00. -/
theorem confirmations_ignored_witness :
    (depositX.httpMethod ≠ "OPTIONS" ∧
      depositX.body = some
        { transaction := some { amount := 5, hash := "X", confirmations := 3 }
          type := "deposit_confirmed", userId := "123456789012345678" }) ∧
    handler true (withConfirmations depositX 1) = handler true depositX ∧
    balanceUpdates "123456789012345678" (handler true (withConfirmations depositX 1)).1
      = [5] :=
  ⟨⟨by decide, rfl⟩,
    confirmations_ignored true depositX
      { transaction := some { amount := 5, hash := "X", confirmations := 3 }
        type := "deposit_confirmed", userId := "123456789012345678" }
      { amount := 5, hash := "X", confirmations := 3 } 1 (by decide) rfl rfl rfl⟩

end Webhook
